import Mathlib

/-!
Shallow embedding of pygit2's `src/tree.c` (tree entry model, tree lookup,
iteration, and the diff bridge) together with theorems checking the
natural-language specification against it.

Modelling conventions:
* C `long`/`Py_ssize_t` integers are `Int`; byte strings are `List Nat`.
* libgit2 collaborators (`git_tree_entry_bypath`, `git_tree_lookup`,
  `git_tree_entry_to_object`) are external to this repository; they appear as
  explicit function parameters returning a C-style `(err, out)` pair, so the
  theorems quantify over every possible collaborator behaviour.
* The canonical entry comparator and the path-argument conversion helper are
  not in this repository's sources; they are modelled from the spec (see the
  doc comments on `entrySortKey` and `py_path_to_c_str`).
* Python exceptions are modelled by kind plus a message tag; allocation
  failures (`MemoryError` paths) are not modelled.
-/

namespace Pygit2

/-- Object kinds, as derived from the content identifier's registered type. -/
inductive ObjType
  | tree
  | blob
  | commit
deriving DecidableEq, Repr

/-- The underlying entry record (`git_tree_entry`): name bytes, file mode,
content identifier bytes, and the derived object kind. -/
structure GitTreeEntry where
  name : List Nat
  filemode : Nat
  oid : List Nat
  otype : ObjType
deriving DecidableEq, Repr

/-- An opaque repository/store context handle. -/
structure Repo where
  handle : Nat
deriving DecidableEq, Repr

/-- The Python-level `TreeEntry` wrapper: an owned entry record plus an
optional associated repository context. -/
structure TreeEntryObj where
  entry : GitTreeEntry
  repo : Option Repo
deriving DecidableEq, Repr

/-- The Python-level `Tree` wrapper: the stored (pre-sorted) entry sequence
plus an optional associated repository context. -/
structure TreeObj where
  entries : List GitTreeEntry
  repo : Option Repo
deriving DecidableEq, Repr

/-- C-style three-way result as an `Int` (negative, zero, positive). -/
def ordToInt : Ordering → Int
  | .lt => -1
  | .eq => 0
  | .gt => 1

/-- Byte-wise lexicographic three-way comparison. -/
def bytesCmp : List Nat → List Nat → Ordering
  | [], [] => .eq
  | [], _ :: _ => .lt
  | _ :: _, [] => .gt
  | a :: as_, b :: bs => if a < b then .lt else if b < a then .gt else bytesCmp as_ bs

/-- Modelled from the spec: the canonical comparator compares names byte-wise
with directory (tree) entries carrying a trailing separator byte (0x2F) for
ordering purposes; mode is not an independent ordering input.  libgit2's
`git_tree_entry_cmp`, which the source delegates to, is not part of this
repository. -/
def entrySortKey (e : GitTreeEntry) : List Nat :=
  if e.otype = ObjType.tree then e.name ++ [47] else e.name

/-- Canonical comparator on entries (see `entrySortKey`). -/
def git_tree_entry_cmp (a b : GitTreeEntry) : Int :=
  ordToInt (bytesCmp (entrySortKey a) (entrySortKey b))

/-- Modelled from the spec: content identifiers are fixed-width opaque binary
values compared byte-wise (`git_oid_cmp` is libgit2's, not this repository's). -/
def git_oid_cmp (a b : List Nat) : Int :=
  ordToInt (bytesCmp a b)

/-- `compare_ids` from `tree.c`: byte-wise comparison of the two entries'
content identifiers. -/
def compare_ids (a b : TreeEntryObj) : Int :=
  git_oid_cmp a.entry.oid b.entry.oid

/-- The six Python rich-comparison operations. -/
inductive CompOp
  | lt
  | le
  | eq
  | ne
  | gt
  | ge
deriving DecidableEq, Repr

/-- The right-hand operand handed to the rich-comparison slot: either another
`TreeEntry` or an arbitrary non-`TreeEntry` Python value. -/
inductive PyOperand
  | treeEntry (e : TreeEntryObj)
  | other (v : Nat)
deriving DecidableEq, Repr

/-- Result of a rich comparison: a boolean, or `NotImplemented` deferring to
the other operand. -/
inductive RichRes
  | bool (b : Bool)
  | notImplemented
deriving DecidableEq, Repr

/-- `TreeEntry_richcompare` from `tree.c`.  A non-`TreeEntry` right operand
yields `NotImplemented`.  Otherwise the canonical comparator is applied and,
on a tie, `compare_ids` breaks it; the operator branches reproduce the C
switch exactly (note: the source computes `<` as `cmp <= 0` and `<=` as
`cmp < 0`). -/
def TreeEntry_richcompare (a : TreeEntryObj) (b : PyOperand) (op : CompOp) : RichRes :=
  match b with
  | .other _ => .notImplemented
  | .treeEntry tb =>
    let cmp0 := git_tree_entry_cmp a.entry tb.entry
    let cmp := if cmp0 = 0 then compare_ids a tb else cmp0
    match op with
    | .lt => .bool (decide (cmp ≤ 0))
    | .le => .bool (decide (cmp < 0))
    | .eq => .bool (decide (cmp = 0))
    | .ne => .bool (decide (¬ cmp = 0))
    | .gt => .bool (decide (0 < cmp))
    | .ge => .bool (decide (0 ≤ cmp))

/-- Modelled from the spec: a path argument is either raw bytes (passed
through) or text, encoded via the platform filesystem convention; the `ok`
flag records whether that encoding succeeds.  The conversion helper
`py_path_to_c_str` lives in `utils.c`, which is not among this repository's
sources. -/
inductive PyPathArg
  | bytes (b : List Nat)
  | text (ok : Bool) (b : List Nat)
deriving DecidableEq, Repr

/-- Modelled from the spec: convert a path argument to raw path bytes;
invalid text encodings fail (setting a type error, see `ErrMsg`). -/
def py_path_to_c_str : PyPathArg → Option (List Nat)
  | .bytes b => some b
  | .text true b => some b
  | .text false _ => none

/-- Message tags distinguishing the error messages the source sets. -/
inductive ErrMsg
  | onlyForTrees
  | onlyForBlobs
  | noRepoAssociated
  | mustBeAnIndex
  | notAPointer
  | valueMustBePathString
  | invalidPathEncoding
  | expectedBytes
  | pointerAttrMissing
deriving DecidableEq, Repr

/-- Python exceptions as raised by the embedded functions, by kind. -/
inductive PyErr
  | typeError (m : ErrMsg)
  | valueError (m : ErrMsg)
  | keyError (key : PyPathArg)
  | indexError (idx : Int)
  | attributeError (m : ErrMsg)
  | storeError (code : Int)
deriving DecidableEq, Repr

/-- Whether an error is a Python `TypeError`. -/
def isTypeError : PyErr → Bool
  | .typeError _ => true
  | _ => false

/-- `GIT_ENOTFOUND` (libgit2's not-found error code). -/
def GIT_ENOTFOUND : Int := -3

/-- Raw output of libgit2's `git_tree_entry_bypath`: a C error code (0 on
success, negative on failure) and the looked-up entry, meaningful only when
`err = 0`. -/
structure BypathOut where
  err : Int
  entry : GitTreeEntry
deriving DecidableEq, Repr

/-- Raw output of libgit2's `git_tree_lookup`: error code and the subtree's
entry sequence, meaningful only when `err = 0`. -/
structure LookupOut where
  err : Int
  tree : List GitTreeEntry
deriving DecidableEq, Repr

/-- Raw output of libgit2's `git_tree_entry_to_object`: error code and an
opaque object handle, meaningful only when `err = 0`. -/
structure ObjOut where
  err : Int
  obj : Nat
deriving DecidableEq, Repr

/-- `wrap_tree_entry` from `tree.c`: wrap a duplicated entry record together
with the (possibly absent) repository context. -/
def wrap_tree_entry (e : GitTreeEntry) (repo : Option Repo) : TreeEntryObj :=
  ⟨e, repo⟩

/-- Result of a containment test (`sq_contains`): found, absent, or a raised
error. -/
inductive ContainsRes
  | found
  | absent
  | raise (e : PyErr)
deriving DecidableEq, Repr

/-- Result of an entry lookup: a wrapped entry or a raised error. -/
inductive GetRes
  | ok (e : TreeEntryObj)
  | raise (e : PyErr)
deriving DecidableEq, Repr

/-- `Tree_len` from `tree.c`: the direct child count. -/
def Tree_len (t : TreeObj) : Nat :=
  t.entries.length

/-- `Tree_contains` from `tree.c`, parameterized by the external
`git_tree_entry_bypath` primitive (already applied to this tree): convert the
path argument, look it up, map `GIT_ENOTFOUND` to absent, other negative
codes to a raised store error, and success to found.  A failed conversion
propagates the conversion's own type error. -/
def Tree_contains (bypath : List Nat → BypathOut) (py_name : PyPathArg) : ContainsRes :=
  match py_path_to_c_str py_name with
  | none => .raise (.typeError .invalidPathEncoding)
  | some name =>
    let r := bypath name
    if r.err = GIT_ENOTFOUND then .absent
    else if r.err < 0 then .raise (.storeError r.err)
    else .found

/-- `Tree_fix_index` from `tree.c`: bounds-check an integer index against the
entry count, raising `IndexError` carrying the original index when out of
range, and rewrite negative in-range indices by adding the length. -/
def Tree_fix_index (es : List GitTreeEntry) (index : Int) : Except Int Nat :=
  if (es.length : Int) ≤ index then Except.error index
  else if index < -(es.length : Int) then Except.error index
  else if index < 0 then Except.ok ((es.length : Int) + index).toNat
  else Except.ok index.toNat

/-- `tree_getitem_by_index` from `tree.c`: fix the index, read the entry at
the fixed position (`git_tree_entry_byindex`, modelled as list indexing),
and wrap a duplicate of it; a missing entry raises `IndexError` carrying the
original index.  The duplication's allocation-failure path is not modelled. -/
def tree_getitem_by_index (es : List GitTreeEntry) (repo : Option Repo) (py_index : Int) : GetRes :=
  match Tree_fix_index es py_index with
  | .error idx => .raise (.indexError idx)
  | .ok n =>
    match es.get? n with
    | none => .raise (.indexError py_index)
    | some e => .ok (wrap_tree_entry e repo)

/-- `tree_getitem_by_path` from `tree.c`, parameterized by the external
`git_tree_entry_bypath` primitive (already applied to this tree): a failed
path conversion raises a type error with the function's own message;
`GIT_ENOTFOUND` raises `KeyError` keyed on the original path argument; other
negative codes raise a store error; success wraps the entry. -/
def tree_getitem_by_path (bypath : List Nat → BypathOut) (repo : Option Repo)
    (py_path : PyPathArg) : GetRes :=
  match py_path_to_c_str py_path with
  | none => .raise (.typeError .valueMustBePathString)
  | some path =>
    let r := bypath path
    if r.err = GIT_ENOTFOUND then .raise (.keyError py_path)
    else if r.err < 0 then .raise (.storeError r.err)
    else .ok (wrap_tree_entry r.entry repo)

/-- `treeentry_to_subtree` from `tree.c`, parameterized by the external
`git_tree_lookup` primitive: reject non-tree kinds with the type error
"Only for trees", then reject an absent repository context with the value
error "No repository associated with this TreeEntry", then look the subtree
up in the store. -/
def treeentry_to_subtree (lookup : Repo → List Nat → LookupOut) (self : TreeEntryObj) :
    Except PyErr (List GitTreeEntry) :=
  if self.entry.otype ≠ ObjType.tree then .error (.typeError .onlyForTrees)
  else
    match self.repo with
    | none => .error (.valueError .noRepoAssociated)
    | some r =>
      let out := lookup r self.entry.oid
      if out.err < 0 then .error (.storeError out.err)
      else .ok out.tree

/-- `treeentry_to_object` from `tree.c`, parameterized by the external
`git_tree_entry_to_object` primitive: reject an absent repository context
with the value error "No repository associated with this TreeEntry", then
materialize the object via the store. -/
def treeentry_to_object (toObj : Repo → GitTreeEntry → ObjOut) (self : TreeEntryObj) :
    Except PyErr Nat :=
  match self.repo with
  | none => .error (.valueError .noRepoAssociated)
  | some r =>
    let out := toObj r self.entry
    if out.err < 0 then .error (.storeError out.err)
    else .ok out.obj

/-- `TreeEntry_blob__get__` from `tree.c`: reject non-blob kinds with the
type error "Only for blobs", then materialize via `treeentry_to_object`. -/
def TreeEntry_blob (toObj : Repo → GitTreeEntry → ObjOut) (self : TreeEntryObj) :
    Except PyErr Nat :=
  if self.entry.otype ≠ ObjType.blob then .error (.typeError .onlyForBlobs)
  else treeentry_to_object toObj self

/-- A subscript key: an integer or a path-like value. -/
inductive PyKey
  | int (i : Int)
  | path (p : PyPathArg)
deriving DecidableEq, Repr

/-- `TreeEntry_contains` from `tree.c`: resolve the subtree, then perform the
same lookup-and-classify sequence as `Tree_contains` on it. -/
def TreeEntry_contains (lookup : Repo → List Nat → LookupOut)
    (bypath : List GitTreeEntry → List Nat → BypathOut)
    (self : TreeEntryObj) (py_name : PyPathArg) : ContainsRes :=
  match treeentry_to_subtree lookup self with
  | .error e => .raise e
  | .ok subtree => Tree_contains (bypath subtree) py_name

/-- `TreeEntry_getitem` from `tree.c`: resolve the subtree, then dispatch an
integer key to positional lookup and any other key to path lookup. -/
def TreeEntry_getitem (lookup : Repo → List Nat → LookupOut)
    (bypath : List GitTreeEntry → List Nat → BypathOut)
    (self : TreeEntryObj) (value : PyKey) : GetRes :=
  match treeentry_to_subtree lookup self with
  | .error e => .raise e
  | .ok subtree =>
    match value with
    | .int i => tree_getitem_by_index subtree self.repo i
    | .path p => tree_getitem_by_path (bypath subtree) self.repo p

/-- `TreeEntry_truediv` from `tree.c`: resolve the subtree, then perform a
path lookup within it. -/
def TreeEntry_truediv (lookup : Repo → List Nat → LookupOut)
    (bypath : List GitTreeEntry → List Nat → BypathOut)
    (self : TreeEntryObj) (p : PyPathArg) : GetRes :=
  match treeentry_to_subtree lookup self with
  | .error e => .raise e
  | .ok subtree => tree_getitem_by_path (bypath subtree) self.repo p

/-- The `TreeIter` state: the owning tree and the zero-based cursor. -/
structure TreeIterObj where
  owner : TreeObj
  i : Nat
deriving DecidableEq, Repr

/-- `Tree_iter` from `tree.c`: a fresh iterator over this tree with its own
cursor at zero. -/
def Tree_iter (t : TreeObj) : TreeIterObj :=
  ⟨t, 0⟩

/-- `TreeIter_iternext` from `tree.c`: read the entry at the cursor
(`git_tree_entry_byindex`); when absent, signal end-of-sequence (first
component `none`, no error) leaving the cursor unchanged; otherwise advance
the cursor and return a wrapped duplicate of the entry.  The duplication's
allocation-failure path is not modelled. -/
def TreeIter_iternext (it : TreeIterObj) : Option TreeEntryObj × TreeIterObj :=
  match it.owner.entries.get? it.i with
  | none => (none, it)
  | some e => (some (wrap_tree_entry e it.owner.repo), ⟨it.owner, it.i + 1⟩)

/-- Run the iterator at most `fuel` steps, collecting the yielded entries. -/
def iterCollect : Nat → TreeIterObj → List TreeEntryObj
  | 0, _ => []
  | n + 1, it =>
    match TreeIter_iternext it with
    | (none, _) => []
    | (some e, it2) => e :: iterCollect n it2

/-- All entries an iterator yields until exhaustion (the owner's entry count
bounds the number of steps). -/
def iterAll (it : TreeIterObj) : List TreeEntryObj :=
  iterCollect it.owner.entries.length it

/-- Apply `TreeIter_iternext` `n` times, keeping only the resulting state. -/
def nextTimes : Nat → TreeIterObj → TreeIterObj
  | 0, it => it
  | n + 1, it => nextTimes n (TreeIter_iternext it).2

/-- The canonical comparator as a relation (used to state sortedness). -/
def entryLe (a b : GitTreeEntry) : Prop :=
  git_tree_entry_cmp a b ≤ 0

instance entryLe.dec : DecidableRel entryLe :=
  fun a b => inferInstanceAs (Decidable (git_tree_entry_cmp a b ≤ 0))

/-- Diff options recognized by the three diff entry points. -/
structure DiffOptions where
  flags : Nat
  context_lines : Nat
  interhunk_lines : Nat
deriving DecidableEq, Repr

/-- A request handed to the external diff engine. -/
inductive EngineCall
  | treeToTree (r : Repo) (fromTree : Option (List GitTreeEntry))
      (toTree : Option (List GitTreeEntry)) (opts : DiffOptions)
  | treeToIndex (r : Repo) (tree : List GitTreeEntry) (index : List Nat) (opts : DiffOptions)
  | treeToWorkdir (r : Repo) (tree : List GitTreeEntry) (opts : DiffOptions)
deriving DecidableEq, Repr

/-- Outcome of a diff entry point: the engine is invoked with a request, or
the absent repository context is dereferenced (a crash: the C code reads
`py_repo->repo` with `py_repo == NULL`, raising no Python error), or an
error is raised before the engine is reached. -/
inductive DiffOutcome
  | invoked (c : EngineCall)
  | nullDeref
  | raise (e : PyErr)
deriving DecidableEq, Repr

/-- `Tree_diff_to_workdir` from `tree.c`: no context check is performed; the
(possibly absent) context is dereferenced and the engine is invoked with the
tree and options. -/
def Tree_diff_to_workdir (self : TreeObj) (opts : DiffOptions) : DiffOutcome :=
  match self.repo with
  | none => .nullDeref
  | some r => .invoked (.treeToWorkdir r self.entries opts)

/-- Modelled from the spec: the engine treats an absent (`null`) tree operand
as the canonical empty tree (§6: `diff(from: Tree|null, ...)`). -/
def emptyTreeOperand : Option (List GitTreeEntry) := none

/-- `Tree_diff_to_tree` from `tree.c`: the `to` operand is the other tree or
the null (empty-tree) operand when omitted; `from` is this tree; when
`swap > 0` the two operands are exchanged before the engine is invoked.  No
context check is performed. -/
def Tree_diff_to_tree (self : TreeObj) (py_tree : Option TreeObj) (opts : DiffOptions)
    (swap : Int) : DiffOutcome :=
  let toT : Option (List GitTreeEntry) := Option.map TreeObj.entries py_tree
  let fromT : Option (List GitTreeEntry) := some self.entries
  let ops := if 0 < swap then (toT, fromT) else (fromT, toT)
  match self.repo with
  | none => .nullDeref
  | some r => .invoked (.treeToTree r ops.1 ops.2 opts)

/-- A Python attribute value: a bytes object or some other object. -/
inductive PyAttrVal
  | bytes (b : List Nat)
  | nonBytes (v : Nat)
deriving DecidableEq, Repr

/-- The index argument of `diff_to_index`, as the validation hack sees it:
whether an `_index` attribute is present, and the `_pointer` attribute's
value when present. -/
structure PyIndexArg where
  hasIndexAttr : Bool
  pointerAttr : Option PyAttrVal
deriving DecidableEq, Repr

/-- `sizeof(git_index *)` on the modelled platform. -/
def ptrSize : Nat := 8

/-- Whether the argument is a genuine index reference: it carries the
`_index` marker and a `_pointer` bytes value of pointer width. -/
def validIndexArg (py_idx : PyIndexArg) : Bool :=
  py_idx.hasIndexAttr &&
    match py_idx.pointerAttr with
    | some (.bytes b) => b.length == ptrSize
    | _ => false

/-- `Tree_diff_to_index` from `tree.c`: a missing `_index` attribute raises
the type error "argument must be an Index"; a missing `_pointer` attribute
propagates the attribute lookup's own error; a non-bytes `_pointer` raises
the conversion's type error; a wrong-width bytes value raises the type error
"passed value is not a pointer"; only then is the engine invoked (with no
context check). -/
def Tree_diff_to_index (self : TreeObj) (py_idx : PyIndexArg) (opts : DiffOptions) :
    DiffOutcome :=
  if py_idx.hasIndexAttr = false then .raise (.typeError .mustBeAnIndex)
  else
    match py_idx.pointerAttr with
    | none => .raise (.attributeError .pointerAttrMissing)
    | some (.nonBytes _) => .raise (.typeError .expectedBytes)
    | some (.bytes buf) =>
      if buf.length ≠ ptrSize then .raise (.typeError .notAPointer)
      else
        match self.repo with
        | none => .nullDeref
        | some r => .invoked (.treeToIndex r self.entries buf opts)

/-- A sample entry: a regular-file blob named "a". -/
def demoEntryA : GitTreeEntry := ⟨[97], 33188, [1], ObjType.blob⟩

/-- A sample entry: a subtree named "b". -/
def demoEntryB : GitTreeEntry := ⟨[98], 16384, [2], ObjType.tree⟩

/-- A canonically ordered two-entry sequence. -/
def demoEntries : List GitTreeEntry := [demoEntryA, demoEntryB]

/-- A sample `TreeEntry` wrapper with no repository context. -/
def eDemo : TreeEntryObj := ⟨demoEntryA, none⟩

/-- C1: evaluating `TreeEntry_richcompare` on an entry compared with an
identical entry (two-level comparison result EQ): the code answers True for
`<` and False for `<=`, contradicting the claimed standard mapping (`<` iff
LT; `<=` iff LT or EQ) while `==`, `>` and `>=` follow it.  The `Py_LT` and
`Py_LE` branches of the C switch are interchanged. -/
theorem richcompare_lt_le_swapped :
    TreeEntry_richcompare eDemo (PyOperand.treeEntry eDemo) CompOp.eq = RichRes.bool true ∧
    TreeEntry_richcompare eDemo (PyOperand.treeEntry eDemo) CompOp.lt = RichRes.bool true ∧
    TreeEntry_richcompare eDemo (PyOperand.treeEntry eDemo) CompOp.le = RichRes.bool false ∧
    TreeEntry_richcompare eDemo (PyOperand.treeEntry eDemo) CompOp.gt = RichRes.bool false ∧
    TreeEntry_richcompare eDemo (PyOperand.treeEntry eDemo) CompOp.ge = RichRes.bool true ∧
    TreeEntry_richcompare eDemo (PyOperand.treeEntry eDemo) CompOp.ne = RichRes.bool false := by
  decide

/-- C9: comparing a `TreeEntry` with any non-`TreeEntry` value returns
`NotImplemented` for each of the six operations, deferring to the other
operand rather than raising or producing a boolean. -/
theorem richcompare_non_entry_not_implemented (a : TreeEntryObj) (v : Nat) (op : CompOp) :
    TreeEntry_richcompare a (PyOperand.other v) op = RichRes.notImplemented :=
  rfl

/-- C3: `get_by_index` returns the entry at position `i` for `0 ≤ i < len`,
agrees with `get_by_index (i + len)` for `-len ≤ i < 0`, and raises
`IndexError` carrying the offending index `i` for `i < -len` or `i ≥ len`. -/
theorem getitem_by_index_characterization (es : List GitTreeEntry) (repo : Option Repo)
    (i : Int) :
    (0 ≤ i → i < (es.length : Int) →
      ∃ e, es.get? i.toNat = some e ∧
        tree_getitem_by_index es repo i = GetRes.ok (wrap_tree_entry e repo)) ∧
    (-(es.length : Int) ≤ i → i < 0 →
      tree_getitem_by_index es repo i = tree_getitem_by_index es repo (i + (es.length : Int))) ∧
    (i < -(es.length : Int) ∨ (es.length : Int) ≤ i →
      tree_getitem_by_index es repo i = GetRes.raise (PyErr.indexError i)) := by
  refine ⟨?_, ?_, ?_⟩
  · intro h0 h1
    have hlt : i.toNat < es.length := by omega
    have hfix : Tree_fix_index es i = Except.ok i.toNat := by
      unfold Tree_fix_index
      split_ifs with ha hb hc
      · exact absurd ha (by omega)
      · exact absurd hb (by omega)
      · exact absurd hc (by omega)
      · rfl
    exact ⟨es.get ⟨i.toNat, hlt⟩, List.get?_eq_get hlt,
      by simp [tree_getitem_by_index, hfix, List.getElem?_eq_getElem hlt]⟩
  · intro h0 h1
    have hlt : (i + (es.length : Int)).toNat < es.length := by omega
    have hfix : Tree_fix_index es i = Except.ok ((es.length : Int) + i).toNat := by
      unfold Tree_fix_index
      split_ifs with ha hb
      · exact absurd ha (by omega)
      · exact absurd hb (by omega)
      · rfl
    have hfix2 : Tree_fix_index es (i + (es.length : Int)) =
        Except.ok (i + (es.length : Int)).toNat := by
      unfold Tree_fix_index
      split_ifs with ha hb hc
      · exact absurd ha (by omega)
      · exact absurd hb (by omega)
      · exact absurd hc (by omega)
      · rfl
    have hsame : ((es.length : Int) + i).toNat = (i + (es.length : Int)).toNat := by omega
    simp [tree_getitem_by_index, hfix, hfix2, hsame, List.getElem?_eq_getElem hlt]
  · intro h
    have hfix : Tree_fix_index es i = Except.error i := by
      unfold Tree_fix_index
      split_ifs with ha hb hc
      · rfl
      · rfl
      · exact absurd h (by omega)
      · exact absurd h (by omega)
    simp [tree_getitem_by_index, hfix]

/-- Witness for C3 at a concrete tree and the negative index -1: it resolves
to the same entry as index -1 + len. -/
theorem getitem_by_index_witness :
    tree_getitem_by_index demoEntries none (-1) =
      tree_getitem_by_index demoEntries none (-1 + (demoEntries.length : Int)) :=
  (getitem_by_index_characterization demoEntries none (-1)).2.1 (by decide) (by decide)

/-- With enough fuel, collecting from cursor `i` yields exactly the wrapped
suffix of the owner's entry sequence from position `i`. -/
theorem iterCollect_eq_drop (t : TreeObj) :
    ∀ (fuel i : Nat), t.entries.length ≤ i + fuel →
      iterCollect fuel ⟨t, i⟩ =
        (t.entries.drop i).map (fun e => wrap_tree_entry e t.repo) := by
  intro fuel
  induction fuel with
  | zero =>
    intro i h
    have hd : t.entries.drop i = [] := List.drop_eq_nil_of_le (by omega)
    simp [iterCollect, hd]
  | succ n ih =>
    intro i h
    cases hg : t.entries.get? i with
    | none =>
      rw [List.get?_eq_getElem?] at hg
      have hle : t.entries.length ≤ i := by
        by_contra hcon
        rw [List.getElem?_eq_getElem (by omega)] at hg
        cases hg
      have hd : t.entries.drop i = [] := List.drop_eq_nil_of_le hle
      simp [iterCollect, TreeIter_iternext, List.get?_eq_getElem?, hg, hd]
    | some e =>
      rw [List.get?_eq_getElem?] at hg
      obtain ⟨hlt, hge⟩ := List.getElem?_eq_some.mp hg
      have hdrop : t.entries.drop i = t.entries[i] :: t.entries.drop (i + 1) :=
        List.drop_eq_getElem_cons hlt
      simp only [iterCollect, TreeIter_iternext, List.get?_eq_getElem?, hg, hdrop,
        List.map_cons, hge]
      exact congrArg _ (ih (i + 1) (by omega))

/-- C4: iterating a tree whose stored entry sequence satisfies the canonical
ordering invariant yields exactly `len` entries, namely the entry sequence
itself in canonical comparator order, and two iterators independently
obtained from the same tree produce identical sequences (each has its own
cursor; the model is pure, so neither can affect the other). -/
theorem tree_iter_yields_all (t : TreeObj) (hsorted : List.Chain' entryLe t.entries) :
    (iterAll (Tree_iter t)).map TreeEntryObj.entry = t.entries ∧
    (iterAll (Tree_iter t)).length = Tree_len t ∧
    List.Chain' entryLe ((iterAll (Tree_iter t)).map TreeEntryObj.entry) ∧
    ∀ it1 it2 : TreeIterObj, it1 = Tree_iter t → it2 = Tree_iter t →
      iterAll it1 = iterAll it2 := by
  have hall : iterAll (Tree_iter t) =
      t.entries.map (fun e => wrap_tree_entry e t.repo) := by
    unfold iterAll Tree_iter
    simpa using iterCollect_eq_drop t t.entries.length 0 (by omega)
  have hmap : (iterAll (Tree_iter t)).map TreeEntryObj.entry = t.entries := by
    rw [hall, List.map_map]
    simp [Function.comp_def, wrap_tree_entry]
  refine ⟨hmap, ?_, ?_, ?_⟩
  · have := congrArg List.length hmap
    simpa [Tree_len] using this
  · rw [hmap]; exact hsorted
  · intro it1 it2 h1 h2
    rw [h1, h2]

/-- Witness for C4 at a concrete canonically ordered two-entry tree. -/
theorem tree_iter_yields_all_witness :
    (iterAll (Tree_iter ⟨demoEntries, none⟩)).map TreeEntryObj.entry = demoEntries :=
  (tree_iter_yields_all ⟨demoEntries, none⟩
    (List.chain'_cons.mpr ⟨by decide, List.chain'_singleton demoEntryB⟩)).1

/-- C10: the cursor advances only when an entry is read (if the state
changed, an entry was returned), and exhaustion is stable: once `next`
signals end-of-sequence — which happens exactly when the cursor has reached
the owner's entry count — the state is unchanged and every subsequent `next`
still signals end-of-sequence with the same state. -/
theorem iter_exhaustion_stable (it : TreeIterObj) :
    ((TreeIter_iternext it).2 ≠ it → ∃ e, (TreeIter_iternext it).1 = some e) ∧
    ((TreeIter_iternext it).1 = none ↔ it.owner.entries.length ≤ it.i) ∧
    ((TreeIter_iternext it).1 = none →
      (TreeIter_iternext it).2 = it ∧
      ∀ n : Nat, nextTimes n it = it ∧ (TreeIter_iternext (nextTimes n it)).1 = none) := by
  cases hg : it.owner.entries.get? it.i with
  | none =>
    have hnext : TreeIter_iternext it = (none, it) := by
      simp [TreeIter_iternext, ← List.get?_eq_getElem?, hg]
    have hle : it.owner.entries.length ≤ it.i := List.get?_eq_none.mp hg
    have hstable : ∀ n : Nat, nextTimes n it = it := by
      intro n
      induction n with
      | zero => rfl
      | succ m ihm =>
        show nextTimes m (TreeIter_iternext it).2 = it
        rw [hnext]
        exact ihm
    refine ⟨?_, ?_, ?_⟩
    · intro hne
      exact absurd (by rw [hnext]) hne
    · simp [hnext, hle]
    · intro _
      exact ⟨by rw [hnext], fun n => ⟨hstable n, by rw [hstable n, hnext]⟩⟩
  | some e =>
    have hnext : TreeIter_iternext it =
        (some (wrap_tree_entry e it.owner.repo), ⟨it.owner, it.i + 1⟩) := by
      simp [TreeIter_iternext, ← List.get?_eq_getElem?, hg]
    have hlt : it.i < it.owner.entries.length := (List.get?_eq_some.mp hg).choose
    refine ⟨?_, ?_, ?_⟩
    · intro _
      exact ⟨wrap_tree_entry e it.owner.repo, by rw [hnext]⟩
    · constructor
      · intro hn
        rw [hnext] at hn
        cases hn
      · intro hle
        exact absurd hlt (by omega)
    · intro hn
      rw [hnext] at hn
      cases hn

/-- Witness for C10 at a concrete exhausted iterator (cursor = entry count):
three further steps leave the state unchanged and still signal the end. -/
theorem iter_exhaustion_stable_witness :
    nextTimes 3 ⟨⟨demoEntries, none⟩, 2⟩ = ⟨⟨demoEntries, none⟩, 2⟩ ∧
    (TreeIter_iternext (nextTimes 3 ⟨⟨demoEntries, none⟩, 2⟩)).1 = none :=
  ((iter_exhaustion_stable ⟨⟨demoEntries, none⟩, 2⟩).2.2 (by decide)).2 3

/-- C5: for every behaviour of the store's path-resolution primitive,
`contains` reports found exactly when `get_by_path` succeeds; a not-found
result makes `get_by_path` raise `KeyError` keyed on the original path
argument while `contains` reports absent (and conversely); a failed path
conversion makes both raise a type error (the source sets its own message in
`get_by_path`, so identity here is at the error-kind level); and a
store-level error propagates identically (same code) from both. -/
theorem contains_iff_get_by_path (bypath : List Nat → BypathOut) (repo : Option Repo)
    (p : PyPathArg) :
    (Tree_contains bypath p = ContainsRes.found ↔
      ∃ e, tree_getitem_by_path bypath repo p = GetRes.ok e) ∧
    (Tree_contains bypath p = ContainsRes.absent ↔
      tree_getitem_by_path bypath repo p = GetRes.raise (PyErr.keyError p)) ∧
    (py_path_to_c_str p = none →
      Tree_contains bypath p = ContainsRes.raise (PyErr.typeError ErrMsg.invalidPathEncoding) ∧
      tree_getitem_by_path bypath repo p =
        GetRes.raise (PyErr.typeError ErrMsg.valueMustBePathString)) ∧
    (∀ c : Int, Tree_contains bypath p = ContainsRes.raise (PyErr.storeError c) ↔
      tree_getitem_by_path bypath repo p = GetRes.raise (PyErr.storeError c)) := by
  cases hconv : py_path_to_c_str p with
  | none =>
    refine ⟨?_, ?_, ?_, ?_⟩ <;>
      simp [Tree_contains, tree_getitem_by_path, hconv]
  | some name =>
    by_cases h1 : (bypath name).err = GIT_ENOTFOUND
    · refine ⟨?_, ?_, ?_, ?_⟩ <;>
        simp [Tree_contains, tree_getitem_by_path, hconv, h1]
    · by_cases h2 : (bypath name).err < 0
      · refine ⟨?_, ?_, ?_, ?_⟩ <;>
          simp [Tree_contains, tree_getitem_by_path, hconv, h1, h2]
      · refine ⟨?_, ?_, ?_, ?_⟩ <;>
          simp [Tree_contains, tree_getitem_by_path, hconv, h1, h2]

/-- Witness for C5 at a concrete unconvertible path argument: both
operations raise a type error. -/
theorem contains_iff_get_by_path_witness :
    Tree_contains (fun _ => ⟨GIT_ENOTFOUND, demoEntryA⟩) (PyPathArg.text false []) =
      ContainsRes.raise (PyErr.typeError ErrMsg.invalidPathEncoding) ∧
    tree_getitem_by_path (fun _ => ⟨GIT_ENOTFOUND, demoEntryA⟩) none (PyPathArg.text false []) =
      GetRes.raise (PyErr.typeError ErrMsg.valueMustBePathString) :=
  (contains_iff_get_by_path (fun _ => ⟨GIT_ENOTFOUND, demoEntryA⟩) none
    (PyPathArg.text false [])).2.2.1 rfl

/-- A sample repository context. -/
def repoDemo : Repo := ⟨7⟩

/-- C6: `diff_to_tree` with the context present hands the engine the operand
pair `(self, other)`; when the other tree is omitted the second operand is
the null operand the engine treats as the canonical empty tree; and when
`swap` is positive (Python `True`) the two operands are exchanged before the
engine is invoked — the request itself carries the exchanged operands, the
engine's result is not post-processed. -/
theorem diff_to_tree_operands (self : TreeObj) (r : Repo) (py_tree : Option TreeObj)
    (opts : DiffOptions) (swap : Int) (hrepo : self.repo = some r) :
    (0 < swap →
      Tree_diff_to_tree self py_tree opts swap =
        DiffOutcome.invoked
          (EngineCall.treeToTree r (Option.map TreeObj.entries py_tree)
            (some self.entries) opts)) ∧
    (¬ 0 < swap →
      Tree_diff_to_tree self py_tree opts swap =
        DiffOutcome.invoked
          (EngineCall.treeToTree r (some self.entries)
            (Option.map TreeObj.entries py_tree) opts)) ∧
    (¬ 0 < swap →
      Tree_diff_to_tree self none opts swap =
        DiffOutcome.invoked
          (EngineCall.treeToTree r (some self.entries) emptyTreeOperand opts)) := by
  refine ⟨?_, ?_, ?_⟩ <;> intro hswap <;>
    simp [Tree_diff_to_tree, hrepo, hswap, emptyTreeOperand]

/-- Witness for C6 at a concrete tree with context, swap = 1 (Python True)
and the other tree omitted: the engine receives the exchanged operands. -/
theorem diff_to_tree_operands_witness :
    Tree_diff_to_tree ⟨demoEntries, some repoDemo⟩ none ⟨0, 3, 0⟩ 1 =
      DiffOutcome.invoked
        (EngineCall.treeToTree repoDemo none (some demoEntries) ⟨0, 3, 0⟩) :=
  (diff_to_tree_operands ⟨demoEntries, some repoDemo⟩ repoDemo none ⟨0, 3, 0⟩ 1 rfl).1
    (by decide)

/-- C2 counterexample: on a concrete tree lacking a store context, each diff
operation reaches a dereference of the absent context (no Python error is
set) instead of raising the NoContext error the claim requires. -/
theorem diff_nocontext_counterexample :
    Tree_diff_to_workdir ⟨demoEntries, none⟩ ⟨0, 3, 0⟩ = DiffOutcome.nullDeref ∧
    Tree_diff_to_tree ⟨demoEntries, none⟩ none ⟨0, 3, 0⟩ 0 = DiffOutcome.nullDeref ∧
    Tree_diff_to_index ⟨demoEntries, none⟩
      ⟨true, some (PyAttrVal.bytes [0, 0, 0, 0, 0, 0, 0, 1])⟩ ⟨0, 3, 0⟩ =
      DiffOutcome.nullDeref ∧
    DiffOutcome.nullDeref ≠ DiffOutcome.raise (PyErr.valueError ErrMsg.noRepoAssociated) := by
  refine ⟨rfl, rfl, rfl, ?_⟩
  intro h
  cases h

/-- C2 (amended): the diff operations perform no context check.  With the
context absent, `diff_to_workdir` and `diff_to_tree` dereference it
unconditionally, `diff_to_index` does so once its index argument validates,
no operation raises the NoContext (`ValueError`) error, and no request is
handed to the engine. -/
theorem diff_nocontext_behaviour (self : TreeObj) (opts : DiffOptions)
    (py_tree : Option TreeObj) (swap : Int) (py_idx : PyIndexArg)
    (hrepo : self.repo = none) :
    Tree_diff_to_workdir self opts = DiffOutcome.nullDeref ∧
    Tree_diff_to_tree self py_tree opts swap = DiffOutcome.nullDeref ∧
    (validIndexArg py_idx = true → Tree_diff_to_index self py_idx opts = DiffOutcome.nullDeref) ∧
    (∀ c : EngineCall, Tree_diff_to_index self py_idx opts ≠ DiffOutcome.invoked c) ∧
    (∀ m : ErrMsg, Tree_diff_to_workdir self opts ≠ DiffOutcome.raise (PyErr.valueError m)) ∧
    (∀ m : ErrMsg, Tree_diff_to_tree self py_tree opts swap ≠
      DiffOutcome.raise (PyErr.valueError m)) := by
  have hidx : ∀ hv : validIndexArg py_idx = true,
      Tree_diff_to_index self py_idx opts = DiffOutcome.nullDeref := by
    intro hv
    unfold validIndexArg at hv
    unfold Tree_diff_to_index
    cases hattr : py_idx.hasIndexAttr with
    | false => rw [hattr] at hv; cases hv
    | true =>
      rw [hattr] at hv
      cases hptr : py_idx.pointerAttr with
      | none => rw [hptr] at hv; cases hv
      | some v =>
        cases v with
        | nonBytes w => rw [hptr] at hv; cases hv
        | bytes b =>
          rw [hptr] at hv
          have hb : b.length = ptrSize := by
            simpa using hv
          simp [hattr, hptr, hb, hrepo]
  refine ⟨by simp [Tree_diff_to_workdir, hrepo], by simp [Tree_diff_to_tree, hrepo],
    hidx, ?_, ?_, ?_⟩
  · intro c hc
    unfold Tree_diff_to_index at hc
    cases hattr : py_idx.hasIndexAttr with
    | false => rw [hattr] at hc; simp at hc
    | true =>
      rw [hattr] at hc
      cases hptr : py_idx.pointerAttr with
      | none => rw [hptr] at hc; simp at hc
      | some v =>
        cases v with
        | nonBytes w => rw [hptr] at hc; simp at hc
        | bytes b =>
          rw [hptr] at hc
          by_cases hb : b.length = ptrSize
          · simp [hb, hrepo] at hc
          · simp [hb] at hc
  · intro m
    simp [Tree_diff_to_workdir, hrepo]
  · intro m
    simp [Tree_diff_to_tree, hrepo]

/-- Witness for C2 (amended) at a concrete contextless tree and a valid
index argument. -/
theorem diff_nocontext_behaviour_witness :
    Tree_diff_to_index ⟨demoEntries, none⟩
      ⟨true, some (PyAttrVal.bytes [0, 0, 0, 0, 0, 0, 0, 1])⟩ ⟨0, 3, 0⟩ =
      DiffOutcome.nullDeref :=
  ((diff_nocontext_behaviour ⟨demoEntries, none⟩ ⟨0, 3, 0⟩ none 0
    ⟨true, some (PyAttrVal.bytes [0, 0, 0, 0, 0, 0, 0, 1])⟩ rfl).2.2.1) (by decide)

/-- C7 counterexample: a concrete Blob-kind entry with no store context.
Subtree resolution raises the kind error ("Only for trees"), not the
NoRepositoryContext error the claim requires for every entry lacking a
context: the kind check precedes the context check. -/
theorem entry_resolution_counterexample :
    treeentry_to_subtree (fun _ _ => ⟨0, []⟩) ⟨demoEntryA, none⟩ =
      Except.error (PyErr.typeError ErrMsg.onlyForTrees) ∧
    (PyErr.typeError ErrMsg.onlyForTrees) ≠ (PyErr.valueError ErrMsg.noRepoAssociated) := by
  refine ⟨rfl, ?_⟩
  intro h
  cases h

/-- C7 (amended): `resolve_subtree` raises the NotATree type error whenever
the kind is not Tree, and `resolve_blob` the NotABlob type error whenever the
kind is not Blob; the kind check precedes the context check, so the
NoRepositoryContext error is raised exactly when the kind precondition holds
and the context is absent; containment, indexing and path-division, which go
through subtree resolution, raise NoRepositoryContext when the entry is
Tree-kind and the context is absent. -/
theorem entry_resolution_errors (lookup : Repo → List Nat → LookupOut)
    (bypath : List GitTreeEntry → List Nat → BypathOut)
    (toObj : Repo → GitTreeEntry → ObjOut)
    (self : TreeEntryObj) (py_name : PyPathArg) (key : PyKey) :
    (self.entry.otype ≠ ObjType.tree →
      treeentry_to_subtree lookup self = Except.error (PyErr.typeError ErrMsg.onlyForTrees)) ∧
    (self.entry.otype = ObjType.tree → self.repo = none →
      treeentry_to_subtree lookup self =
        Except.error (PyErr.valueError ErrMsg.noRepoAssociated)) ∧
    (self.entry.otype ≠ ObjType.blob →
      TreeEntry_blob toObj self = Except.error (PyErr.typeError ErrMsg.onlyForBlobs)) ∧
    (self.entry.otype = ObjType.blob → self.repo = none →
      TreeEntry_blob toObj self = Except.error (PyErr.valueError ErrMsg.noRepoAssociated)) ∧
    (self.entry.otype = ObjType.tree → self.repo = none →
      TreeEntry_contains lookup bypath self py_name =
        ContainsRes.raise (PyErr.valueError ErrMsg.noRepoAssociated) ∧
      TreeEntry_getitem lookup bypath self key =
        GetRes.raise (PyErr.valueError ErrMsg.noRepoAssociated) ∧
      TreeEntry_truediv lookup bypath self py_name =
        GetRes.raise (PyErr.valueError ErrMsg.noRepoAssociated)) := by
  refine ⟨?_, ?_, ?_, ?_, ?_⟩
  · intro hk
    simp [treeentry_to_subtree, hk]
  · intro hk hr
    simp [treeentry_to_subtree, hk, hr]
  · intro hk
    simp [TreeEntry_blob, hk]
  · intro hk hr
    simp [TreeEntry_blob, treeentry_to_object, hk, hr]
  · intro hk hr
    have hsub : treeentry_to_subtree lookup self =
        Except.error (PyErr.valueError ErrMsg.noRepoAssociated) := by
      simp [treeentry_to_subtree, hk, hr]
    exact ⟨by simp [TreeEntry_contains, hsub], by simp [TreeEntry_getitem, hsub],
      by simp [TreeEntry_truediv, hsub]⟩

/-- Witness for C7 (amended) at a concrete Tree-kind entry with no context:
subtree resolution raises the NoRepositoryContext value error. -/
theorem entry_resolution_errors_witness :
    treeentry_to_subtree (fun _ _ => ⟨0, []⟩) ⟨demoEntryB, none⟩ =
      Except.error (PyErr.valueError ErrMsg.noRepoAssociated) :=
  (entry_resolution_errors (fun _ _ => ⟨0, []⟩) (fun _ _ => ⟨0, demoEntryA⟩)
    (fun _ _ => ⟨0, 0⟩) ⟨demoEntryB, none⟩ (PyPathArg.bytes []) (PyKey.int 0)).2.1 rfl rfl

/-- C8 counterexample: a concrete non-index value carrying an `_index`
attribute but no `_pointer` attribute.  `diff_to_index` rejects it with the
attribute lookup's own error, which is not a type error, contradicting the
claim that a non-index value fails with a type error.  (The engine is still
not invoked.) -/
theorem diff_to_index_counterexample :
    Tree_diff_to_index ⟨demoEntries, some repoDemo⟩ ⟨true, none⟩ ⟨0, 3, 0⟩ =
      DiffOutcome.raise (PyErr.attributeError ErrMsg.pointerAttrMissing) ∧
    isTypeError (PyErr.attributeError ErrMsg.pointerAttrMissing) = false :=
  ⟨rfl, rfl⟩

/-- C8 (amended): `diff_to_index` validates its argument before any engine
call.  A value without the `_index` marker fails with the type error
"argument must be an Index"; a value with the marker but no `_pointer`
attribute fails with the attribute lookup's own error; a non-bytes
`_pointer` fails with the bytes conversion's type error; a bytes `_pointer`
of the wrong width fails with the type error "passed value is not a
pointer"; and the engine is invoked only for arguments passing the full
validation. -/
theorem diff_to_index_validation (self : TreeObj) (py_idx : PyIndexArg)
    (opts : DiffOptions) :
    (py_idx.hasIndexAttr = false →
      Tree_diff_to_index self py_idx opts =
        DiffOutcome.raise (PyErr.typeError ErrMsg.mustBeAnIndex)) ∧
    (py_idx.hasIndexAttr = true → py_idx.pointerAttr = none →
      Tree_diff_to_index self py_idx opts =
        DiffOutcome.raise (PyErr.attributeError ErrMsg.pointerAttrMissing)) ∧
    (∀ v : Nat, py_idx.hasIndexAttr = true →
      py_idx.pointerAttr = some (PyAttrVal.nonBytes v) →
      Tree_diff_to_index self py_idx opts =
        DiffOutcome.raise (PyErr.typeError ErrMsg.expectedBytes)) ∧
    (∀ b : List Nat, py_idx.hasIndexAttr = true →
      py_idx.pointerAttr = some (PyAttrVal.bytes b) → b.length ≠ ptrSize →
      Tree_diff_to_index self py_idx opts =
        DiffOutcome.raise (PyErr.typeError ErrMsg.notAPointer)) ∧
    (∀ c : EngineCall, Tree_diff_to_index self py_idx opts = DiffOutcome.invoked c →
      validIndexArg py_idx = true) := by
  refine ⟨?_, ?_, ?_, ?_, ?_⟩
  · intro hattr
    simp [Tree_diff_to_index, hattr]
  · intro hattr hptr
    simp [Tree_diff_to_index, hattr, hptr]
  · intro v hattr hptr
    simp [Tree_diff_to_index, hattr, hptr]
  · intro b hattr hptr hlen
    simp [Tree_diff_to_index, hattr, hptr, hlen]
  · intro c hc
    unfold Tree_diff_to_index at hc
    cases hattr : py_idx.hasIndexAttr with
    | false => rw [hattr] at hc; simp at hc
    | true =>
      rw [hattr] at hc
      cases hptr : py_idx.pointerAttr with
      | none => rw [hptr] at hc; simp at hc
      | some v =>
        cases v with
        | nonBytes w => rw [hptr] at hc; simp at hc
        | bytes b =>
          rw [hptr] at hc
          by_cases hb : b.length = ptrSize
          · simp [validIndexArg, hattr, hptr, hb]
          · simp [hb] at hc

/-- Witness for C8 (amended) at a concrete argument lacking the `_index`
marker: the rejection is the expected type error. -/
theorem diff_to_index_validation_witness :
    Tree_diff_to_index ⟨demoEntries, some repoDemo⟩ ⟨false, none⟩ ⟨0, 3, 0⟩ =
      DiffOutcome.raise (PyErr.typeError ErrMsg.mustBeAnIndex) :=
  (diff_to_index_validation ⟨demoEntries, some repoDemo⟩ ⟨false, none⟩ ⟨0, 3, 0⟩).1 rfl

end Pygit2
